import Mathlib

/-
Verification development for the wasm-chip8 interpreter (src/src/chip8.rs).
The machine state is a single flat byte array of 0x1000 cells; every
architectural register is a view into that array at a fixed offset.  The
embedding models the array as a total function from addresses to Nat; the
u8 type of each cell is rendered by reducing reads and writes modulo 256.
Machine integers follow the release-build semantics of the source (wrapping
arithmetic), written with explicit mod 2^w.
-/

def FONT_ADDR : Nat := 0x0000
def V_REGISTERS_ADDR : Nat := 0x0050
def STACK_ADDR : Nat := 0x0060
def DISPLAY_BUFFER_ADDR : Nat := 0x0080
def STACK_POINTER_ADDR : Nat := 0x0180
def SOUND_TIMER_ADDR : Nat := 0x0181
def DELAY_TIMER_ADDR : Nat := 0x0182
def PROGRAM_COUNTER_ADDR : Nat := 0x0183
def INDEX_REGISTER_ADDR : Nat := 0x0185
def WAIT_KEY_PRESS_FLAG_ADDR : Nat := 0x0187
def KEY_FLAGS_ADDR : Nat := 0x0188
def DISPLAY_BUFFER_SIZE : Nat := 256

/-- FONT constant from chip8.rs: 16 glyphs, 5 nibbles each (u32 entries). -/
def FONT : List Nat := [
  0xF999F, 0x26227, 0xF1F8F, 0xF1F1F,
  0x99F11, 0xF8F1F, 0xF8F9F, 0xF1244,
  0xF9F9F, 0xF9F1F, 0xF9F99, 0xE9E9E,
  0xF888F, 0xE999E, 0xF8F8F, 0xF8F88]

/-- The Chip8 struct: memory is the [u8; 0x1000] array, modelled as a total
function from addresses to byte values. -/
structure Chip8 where
  memory : Nat → Nat

/-- Read one u8 cell; the mod 256 renders the u8 type of the array cells. -/
def rd (s : Chip8) (a : Nat) : Nat := s.memory a % 256

/-- Write one u8 cell; the stored value is truncated to a byte, rendering
the u8 type of the array cells. -/
def wr (s : Chip8) (a v : Nat) : Chip8 :=
  ⟨fun a2 => if a2 = a then v % 256 else s.memory a2⟩

/-- get_v from chip8.rs: memory[V_REGISTERS_ADDR + index]. -/
def get_v (s : Chip8) (index : Nat) : Nat := rd s (V_REGISTERS_ADDR + index)

/-- set_v from chip8.rs. -/
def set_v (s : Chip8) (index v : Nat) : Chip8 := wr s (V_REGISTERS_ADDR + index) v

/-- get_dt from chip8.rs. -/
def get_dt (s : Chip8) : Nat := rd s DELAY_TIMER_ADDR

/-- set_dt from chip8.rs. -/
def set_dt (s : Chip8) (v : Nat) : Chip8 := wr s DELAY_TIMER_ADDR v

/-- get_st from chip8.rs. -/
def get_st (s : Chip8) : Nat := rd s SOUND_TIMER_ADDR

/-- set_st from chip8.rs. -/
def set_st (s : Chip8) (v : Nat) : Chip8 := wr s SOUND_TIMER_ADDR v

/-- get_i from chip8.rs: u16::from(high) shifted left by 8, or-ed with the low
byte; on two u8 values this is exactly high * 256 + low. -/
def get_i (s : Chip8) : Nat :=
  rd s INDEX_REGISTER_ADDR * 256 + rd s (INDEX_REGISTER_ADDR + 1)

/-- set_i from chip8.rs: stores value shifted right by 8 and masked with 0xFF
(rendered v / 256 % 256) at the low address, value masked with 0xFF at the
high address. -/
def set_i (s : Chip8) (v : Nat) : Chip8 :=
  wr (wr s INDEX_REGISTER_ADDR (v / 256 % 256)) (INDEX_REGISTER_ADDR + 1) (v % 256)

/-- get_sp from chip8.rs. -/
def get_sp (s : Chip8) : Nat := rd s STACK_POINTER_ADDR

/-- set_sp from chip8.rs. -/
def set_sp (s : Chip8) (v : Nat) : Chip8 := wr s STACK_POINTER_ADDR v

/-- get_pc from chip8.rs: same big-endian pairing as get_i. -/
def get_pc (s : Chip8) : Nat :=
  rd s PROGRAM_COUNTER_ADDR * 256 + rd s (PROGRAM_COUNTER_ADDR + 1)

/-- set_pc from chip8.rs: same byte split as set_i. -/
def set_pc (s : Chip8) (v : Nat) : Chip8 :=
  wr (wr s PROGRAM_COUNTER_ADDR (v / 256 % 256)) (PROGRAM_COUNTER_ADDR + 1) (v % 256)

/-- pop_from_stack from chip8.rs, returning the popped value and the new
state.  The source computes offset = sp * 2 (u8 multiply, wraps mod 256),
then sp - 1 (u8 subtraction, rendered as wrapping + 255 mod 256), and builds
the value as u16::from(high byte) SHIFTED RIGHT by 8 (rendered / 256) or-ed
with the low byte, exactly as written in the source. -/
def pop_from_stack (s : Chip8) : Nat × Chip8 :=
  let offset := get_sp s * 2 % 256
  let s1 := set_sp s ((get_sp s + 255) % 256)
  (rd s1 (STACK_ADDR + offset) / 256 ||| rd s1 (STACK_ADDR + offset + 1), s1)

/-- push_into_stack from chip8.rs: increments sp (u8 add, wraps), then writes
the two bytes of the value at STACK_ADDR + sp * 2. -/
def push_into_stack (s : Chip8) (v : Nat) : Chip8 :=
  let s1 := set_sp s ((get_sp s + 1) % 256)
  let offset := get_sp s1 * 2 % 256
  let s2 := wr s1 (STACK_ADDR + offset) (v / 256 % 256)
  wr s2 (STACK_ADDR + offset + 1) (v % 256)

/-- fetch_opcode from chip8.rs: u16::from(memory[pc]) SHIFTED RIGHT by 8
(rendered / 256) or-ed with memory[pc + 1]; the u16 increment of pc is
rendered mod 2^16. -/
def fetch_opcode (s : Chip8) : Nat :=
  rd s (get_pc s) / 256 ||| rd s ((get_pc s + 1) % 65536)

/-- Chip8::new from chip8.rs: zeroed memory, then the font install loop.  The
source writes memory[digit * byte] = (FONT[digit] >> (16 - byte * 4)) & 0xFF
for digit in 0..16 and byte in 0..5, exactly as indexed in the source. -/
def Chip8.new : Chip8 :=
  (List.range 16).foldl
    (fun s digit =>
      (List.range 5).foldl
        (fun t b => wr t (digit * b) (FONT.getD digit 0 / 2 ^ (16 - b * 4) % 256))
        s)
    ⟨fun _ => 0⟩

/-- get_key_pressed from chip8.rs: memory[KEY_FLAGS_ADDR + key] > 0. -/
def get_key_pressed (s : Chip8) (key : Nat) : Bool :=
  0 < rd s (KEY_FLAGS_ADDR + key)

/-- is_waiting_for_key from chip8.rs: top bit of the wait flag byte. -/
def is_waiting_for_key (s : Chip8) : Bool :=
  0 < rd s WAIT_KEY_PRESS_FLAG_ADDR &&& 0x80

/-- set_waiting_for_key from chip8.rs: byte |= 1 << 7. -/
def set_waiting_for_key (s : Chip8) : Chip8 :=
  wr s WAIT_KEY_PRESS_FLAG_ADDR (rd s WAIT_KEY_PRESS_FLAG_ADDR ||| 0x80)

/-- clear_waiting_for_key from chip8.rs: byte &= !(1 << 7), the u8 complement
of 0x80 being 0x7F. -/
def clear_waiting_for_key (s : Chip8) : Chip8 :=
  wr s WAIT_KEY_PRESS_FLAG_ADDR (rd s WAIT_KEY_PRESS_FLAG_ADDR &&& 0x7F)

/-- get_waiting_key_destination from chip8.rs: low nibble of the flag byte. -/
def get_waiting_key_destination (s : Chip8) : Nat :=
  rd s WAIT_KEY_PRESS_FLAG_ADDR &&& 0xF

/-- set_waiting_key_destination from chip8.rs: byte &= 0xF0 then byte |= x. -/
def set_waiting_key_destination (s : Chip8) (x : Nat) : Chip8 :=
  let s1 := wr s WAIT_KEY_PRESS_FLAG_ADDR (rd s WAIT_KEY_PRESS_FLAG_ADDR &&& 0xF0)
  wr s1 WAIT_KEY_PRESS_FLAG_ADDR (rd s1 WAIT_KEY_PRESS_FLAG_ADDR ||| x)

/-- set_awaited_key from chip8.rs. -/
def set_awaited_key (s : Chip8) (key : Nat) : Chip8 :=
  set_v s (get_waiting_key_destination s) key

/-- set_key_pressed from chip8.rs: records the key flag, then resolves the
key wait when the flag is set and the key is pressed. -/
def set_key_pressed (s : Chip8) (key : Nat) (pressed : Bool) : Chip8 :=
  let s1 := wr s (KEY_FLAGS_ADDR + key) (if pressed then 1 else 0)
  if is_waiting_for_key s1 ∧ pressed then
    clear_waiting_for_key (set_awaited_key s1 key)
  else s1

/-- cls from chip8.rs: zeroes the 256 display-buffer bytes. -/
def cls (s : Chip8) : Chip8 :=
  (List.range DISPLAY_BUFFER_SIZE).foldl
    (fun t index => wr t (DISPLAY_BUFFER_ADDR + index) 0) s

/-- ret from chip8.rs. -/
def ret (s : Chip8) : Chip8 :=
  let p := pop_from_stack s
  set_pc p.2 p.1

/-- jmp_direct from chip8.rs. -/
def jmp_direct (s : Chip8) (addr : Nat) : Chip8 := set_pc s addr

/-- call from chip8.rs: pushes the current pc, then jumps. -/
def call (s : Chip8) (addr : Nat) : Chip8 :=
  set_pc (push_into_stack s (get_pc s)) addr

/-- se_immedate from chip8.rs (u16 pc add rendered mod 2^16). -/
def se_immedate (s : Chip8) (x byte : Nat) : Chip8 :=
  if get_v s x = byte then set_pc s ((get_pc s + 2) % 65536) else s

/-- sne_immedate from chip8.rs. -/
def sne_immedate (s : Chip8) (x byte : Nat) : Chip8 :=
  if get_v s x ≠ byte then set_pc s ((get_pc s + 2) % 65536) else s

/-- se_registers from chip8.rs. -/
def se_registers (s : Chip8) (x y : Nat) : Chip8 :=
  if get_v s x = get_v s y then set_pc s ((get_pc s + 2) % 65536) else s

/-- sne_registers from chip8.rs. -/
def sne_registers (s : Chip8) (x y : Nat) : Chip8 :=
  if get_v s x ≠ get_v s y then set_pc s ((get_pc s + 2) % 65536) else s

/-- ld_immedate from chip8.rs. -/
def ld_immedate (s : Chip8) (x byte : Nat) : Chip8 := set_v s x byte

/-- add_immedate from chip8.rs (u8 wrapping add, release semantics). -/
def add_immedate (s : Chip8) (x byte : Nat) : Chip8 :=
  set_v s x ((get_v s x + byte) % 256)

/-- ld_registers from chip8.rs. -/
def ld_registers (s : Chip8) (x y : Nat) : Chip8 := set_v s x (get_v s y)

/-- or_registers from chip8.rs. -/
def or_registers (s : Chip8) (x y : Nat) : Chip8 :=
  set_v s x (get_v s x ||| get_v s y)

/-- and_registers from chip8.rs. -/
def and_registers (s : Chip8) (x y : Nat) : Chip8 :=
  set_v s x (get_v s x &&& get_v s y)

/-- xor_registers from chip8.rs. -/
def xor_registers (s : Chip8) (x y : Nat) : Chip8 :=
  set_v s x (get_v s x ^^^ get_v s y)

/-- add_registers from chip8.rs: VF receives the widened carry first, then
Vx receives the u8 wrapping sum (release semantics, rendered mod 256). -/
def add_registers (s : Chip8) (x y : Nat) : Chip8 :=
  let vx := get_v s x
  let vy := get_v s y
  let s1 := set_v s 0xF (if 255 < vx + vy then 1 else 0)
  set_v s1 x ((vx + vy) % 256)

/-- sub_registers from chip8.rs: VF := if vx > vy then 1 else 0, then
Vx := vx - vy (u8 wrapping subtraction, rendered + 256 - vy mod 256). -/
def sub_registers (s : Chip8) (x y : Nat) : Chip8 :=
  let vx := get_v s x
  let vy := get_v s y
  let s1 := set_v s 0xF (if vy < vx then 1 else 0)
  set_v s1 x ((vx + 256 - vy) % 256)

/-- subn_registers from chip8.rs. -/
def subn_registers (s : Chip8) (x y : Nat) : Chip8 :=
  let vx := get_v s x
  let vy := get_v s y
  let s1 := set_v s 0xF (if vx < vy then 1 else 0)
  set_v s1 x ((vy + 256 - vx) % 256)

/-- shr from chip8.rs: VF := vx & 1, Vx := vx >> 1 (rendered / 2). -/
def shr (s : Chip8) (x : Nat) : Chip8 :=
  let vx := get_v s x
  set_v (set_v s 0xF (vx &&& 1)) x (vx / 2)

/-- shl from chip8.rs: VF := vx >> 7 (rendered / 128), Vx := vx << 1 (u8,
rendered * 2 mod 256). -/
def shl (s : Chip8) (x : Nat) : Chip8 :=
  let vx := get_v s x
  set_v (set_v s 0xF (vx / 128)) x (vx * 2 % 256)

/-- ld_index from chip8.rs. -/
def ld_index (s : Chip8) (addr : Nat) : Chip8 := set_i s addr

/-- jmp_indirect from chip8.rs (u16 add rendered mod 2^16). -/
def jmp_indirect (s : Chip8) (addr : Nat) : Chip8 :=
  set_pc s ((addr + get_v s 0) % 65536)

/-- rnd from chip8.rs; the byte drawn from rand::random is passed in as r. -/
def rnd (s : Chip8) (x byte r : Nat) : Chip8 :=
  set_v s x (r &&& byte)

/-- drw from chip8.rs.  For each sprite row i the source computes, all in u8
arithmetic (release semantics, each step rendered mod 256 where it can wrap):
addr_left = vx % 64 + (vy + i) % 32 * 64 / 8 and
addr_right = (vx + 7) % 64 + (vy + i) % 32 * 64 / 8, the sprite byte shifted
right by vx % 8 for the left write and left by 8 - vx % 8 for the right write
(a u8 shift whose amount is masked mod 8 when vx % 8 = 0), xors the data into
the display buffer, and accumulates collision bits; finally VF := overflow
being nonzero. -/
def drw (s : Chip8) (x y n : Nat) : Chip8 :=
  let vx := get_v s x
  let vy := get_v s y
  let index := get_i s
  let res :=
    (List.range n).foldl
      (fun (p : Chip8 × Nat) i =>
        let t := p.1
        let row := (vy + i) % 256 % 32 * 64 % 256 / 8
        let addr_left := vx % 64 + row
        let addr_right := (vx + 7) % 256 % 64 + row
        let data_left := rd t (index + i) / 2 ^ (vx % 8)
        let data_right := rd t (index + i) * 2 ^ ((8 - vx % 8) % 8) % 256
        let t1 := wr t (DISPLAY_BUFFER_ADDR + addr_left)
          (rd t (DISPLAY_BUFFER_ADDR + addr_left) ^^^ data_left)
        let o1 := p.2 |||
          ((rd t1 (DISPLAY_BUFFER_ADDR + addr_left) ^^^ data_left) &&& data_left)
        let t2 := wr t1 (DISPLAY_BUFFER_ADDR + addr_right)
          (rd t1 (DISPLAY_BUFFER_ADDR + addr_right) ^^^ data_right)
        let o2 := o1 |||
          ((rd t2 (DISPLAY_BUFFER_ADDR + addr_right) ^^^ data_right) &&& data_right)
        (t2, o2))
      (s, 0)
  set_v res.1 0xF (if res.2 ≠ 0 then 1 else 0)

/-- skp from chip8.rs. -/
def skp (s : Chip8) (x : Nat) : Chip8 :=
  if get_key_pressed s (get_v s x) then set_pc s ((get_pc s + 2) % 65536) else s

/-- sknp from chip8.rs. -/
def sknp (s : Chip8) (x : Nat) : Chip8 :=
  if ¬ get_key_pressed s (get_v s x) then set_pc s ((get_pc s + 2) % 65536) else s

/-- ld_from_dt from chip8.rs. -/
def ld_from_dt (s : Chip8) (x : Nat) : Chip8 := set_v s x (get_dt s)

/-- ld_key_press from chip8.rs: records the destination register, then raises
the wait flag. -/
def ld_key_press (s : Chip8) (x : Nat) : Chip8 :=
  set_waiting_for_key (set_waiting_key_destination s x)

/-- ld_into_dt from chip8.rs. -/
def ld_into_dt (s : Chip8) (x : Nat) : Chip8 := set_dt s (get_v s x)

/-- ld_into_st from chip8.rs. -/
def ld_into_st (s : Chip8) (x : Nat) : Chip8 := set_st s (get_v s x)

/-- add_index from chip8.rs (u16 add rendered mod 2^16). -/
def add_index (s : Chip8) (x : Nat) : Chip8 :=
  set_i s ((get_i s + get_v s x) % 65536)

/-- ld_font_addr from chip8.rs. -/
def ld_font_addr (s : Chip8) (x : Nat) : Chip8 :=
  set_i s (FONT_ADDR + get_v s x * 5)

/-- ld_bcd from chip8.rs. -/
def ld_bcd (s : Chip8) (x : Nat) : Chip8 :=
  let vx := get_v s x
  let i := get_i s
  wr (wr (wr s i (vx / 100 % 10)) (i + 1) (vx / 10 % 10)) (i + 2) (vx % 10)

/-- ld_into_mem from chip8.rs: for each register index j in 0..=x (in order)
writes memory[i + j] := get_v j, reading i once before the loop; the u16
address add is rendered mod 2^16. -/
def ld_into_mem (s : Chip8) (x : Nat) : Chip8 :=
  let i := get_i s
  (List.range (x + 1)).foldl (fun t j => wr t ((i + j) % 65536) (get_v t j)) s

/-- ld_from_mem from chip8.rs: for each register index j in 0..=x (in order)
sets register j from memory[i + j], reading i once before the loop. -/
def ld_from_mem (s : Chip8) (x : Nat) : Chip8 :=
  let i := get_i s
  (List.range (x + 1)).foldl (fun t j => set_v t j (rd t ((i + j) % 65536))) s

/-- execute_instruction from chip8.rs: returns unchanged when the key-wait
flag is set; otherwise fetches the opcode, decodes the nibble fields, runs
the sequence of decode_instruction guards exactly as listed in the source
(the guards are mutually exclusive), and finally performs the unconditional
set_pc(get_pc + 2).  The byte r stands for the value rand::random produces
inside the RND arm. -/
def execute_instruction (r : Nat) (s : Chip8) : Chip8 :=
  if is_waiting_for_key s then s else
  let opcode := fetch_opcode s
  let c := opcode / 4096 % 16
  let nnn := opcode % 4096
  let nn := opcode % 256
  let n := opcode % 16
  let x := opcode / 256 % 16
  let y := opcode / 16 % 16
  let s := if c = 0x0 ∧ nn = 0xE0 then cls s else s
  let s := if c = 0x0 ∧ nn = 0xEE then ret s else s
  let s := if c = 0x1 then jmp_direct s nnn else s
  let s := if c = 0x2 then call s nnn else s
  let s := if c = 0x3 then se_immedate s x nn else s
  let s := if c = 0x4 then sne_immedate s x nn else s
  let s := if c = 0x5 ∧ n = 0x0 then se_registers s x y else s
  let s := if c = 0x6 then ld_immedate s x nn else s
  let s := if c = 0x7 then add_immedate s x nn else s
  let s := if c = 0x8 ∧ n = 0x0 then ld_registers s x y else s
  let s := if c = 0x8 ∧ n = 0x1 then or_registers s x y else s
  let s := if c = 0x8 ∧ n = 0x2 then and_registers s x y else s
  let s := if c = 0x8 ∧ n = 0x3 then xor_registers s x y else s
  let s := if c = 0x8 ∧ n = 0x4 then add_registers s x y else s
  let s := if c = 0x8 ∧ n = 0x5 then sub_registers s x y else s
  let s := if c = 0x8 ∧ n = 0x6 then shr s x else s
  let s := if c = 0x8 ∧ n = 0x7 then subn_registers s x y else s
  let s := if c = 0x8 ∧ n = 0xE then shl s x else s
  let s := if c = 0x9 ∧ n = 0x0 then sne_registers s x y else s
  let s := if c = 0xA then ld_index s nnn else s
  let s := if c = 0xB then jmp_indirect s nnn else s
  let s := if c = 0xC then rnd s x nn r else s
  let s := if c = 0xD then drw s x y n else s
  let s := if c = 0xE ∧ nn = 0x9E then skp s x else s
  let s := if c = 0xE ∧ nn = 0xA1 then sknp s x else s
  let s := if c = 0xF ∧ nn = 0x07 then ld_from_dt s x else s
  let s := if c = 0xF ∧ nn = 0x0A then ld_key_press s x else s
  let s := if c = 0xF ∧ nn = 0x15 then ld_into_dt s x else s
  let s := if c = 0xF ∧ nn = 0x18 then ld_into_st s x else s
  let s := if c = 0xF ∧ nn = 0x1E then add_index s x else s
  let s := if c = 0xF ∧ nn = 0x29 then ld_font_addr s x else s
  let s := if c = 0xF ∧ nn = 0x33 then ld_bcd s x else s
  let s := if c = 0xF ∧ nn = 0x55 then ld_into_mem s x else s
  let s := if c = 0xF ∧ nn = 0x65 then ld_from_mem s x else s
  set_pc s ((get_pc s + 2) % 65536)

/-- Every cell read is a byte. -/
theorem rd_lt (s : Chip8) (a : Nat) : rd s a < 256 :=
  Nat.mod_lt _ (by omega)

/-- Read-after-write characterisation of the memory cells. -/
theorem rd_wr (s : Chip8) (a b v : Nat) :
    rd (wr s b v) a = if a = b then v % 256 else rd s a := by
  unfold rd wr
  dsimp only
  split
  · exact Nat.mod_mod_of_dvd v (dvd_refl 256)
  · rfl

/-- The all-zero machine state, used to build concrete test states. -/
def zeroS : Chip8 := ⟨fun _ => 0⟩

/-- Concrete state for the fetch claim: PC = 0x200, big-endian instruction
word 0x1234 stored at 0x200, 0x201, machine not waiting for a key. -/
def mS1 : Chip8 := set_pc (wr (wr zeroS 0x200 0x12) 0x201 0x34) 0x200

/-- C1: the claim fails on the code.  With memory[PC] = 0x12 and
memory[PC + 1] = 0x34 the fetched opcode is 0x34, not the big-endian word
0x1234 = memory[PC] * 256 + memory[PC + 1]: fetch_opcode shifts the high
byte RIGHT by 8 (losing it) instead of left, so the dispatch nibble is the
high nibble of the low byte, never that of the byte at PC. -/
theorem fetch_opcode_drops_high_byte :
    fetch_opcode mS1 = 0x34 ∧
    rd mS1 (get_pc mS1) * 256 + rd mS1 (get_pc mS1 + 1) = 0x1234 ∧
    fetch_opcode mS1 ≠ 0x1234 := by decide

/-- Concrete state for the dispatcher claim, JMP arm: bytes 0x13 0x00
(JMP 0x300) at PC = 0x200. -/
def mS2a : Chip8 := set_pc (wr (wr zeroS 0x200 0x13) 0x201 0x00) 0x200

/-- Concrete state for the dispatcher claim, RET arm: bytes 0x00 0xEE (RET)
at PC = 0x200, SP = 1, stack slot holding return address 0x0050. -/
def mS2b : Chip8 :=
  set_pc (set_sp (wr (wr (wr zeroS 0x201 0xEE) 0x62 0x00) 0x63 0x50) 1) 0x200

/-- C2: the claim fails on the code.  A step on the JMP 0x300 encoding ends
with PC = 0x202 (the fetch bug reduces the opcode to 0x00, so JMP never
decodes and only the blanket advance runs), not PC = 0x300; and a step that
does execute a return (RET decodes, since its opcode survives as the low
byte 0xEE) still gets the blanket +2: the popped slot value is 0x50 but the
final PC is 0x52, so the advance is not withheld after control-flow
operations. -/
theorem dispatcher_always_advances_pc :
    get_pc (execute_instruction 0 mS2a) = 0x202 ∧
    (pop_from_stack mS2b).1 = 0x50 ∧
    get_pc (execute_instruction 0 mS2b) = 0x52 := by decide

/-- C3: the claim fails on the code.  Glyph 1 should occupy addresses 5..9
with the standard rows 0x20 0x60 0x20 0x20 0x70, but the install loop indexes
memory[digit * byte] instead of memory[digit * 5 + byte]: address 5 is
written only by the (digit 5, byte 1) iteration and receives 0xF8, and the
freshly constructed machine holds 0xF8 there, not 0x20. -/
theorem new_font_install_misindexed :
    rd Chip8.new 5 = 0xF8 ∧ rd Chip8.new 5 ≠ 0x20 := by decide

/-- Concrete state for the draw claim: V0 = 1 (x origin), V1 = 0 (y origin),
I = 0x200, one sprite byte 0xFF at 0x200, display buffer all zero. -/
def mS6 : Chip8 := set_i (set_v (set_v (wr zeroS 0x200 0xFF) 0 1) 1 0) 0x200

/-- C6: the claim fails on the code.  Drawing the 8-pixel row 0xFF at
(VX, VY) = (1, 0) must set columns 1..8 of row 0: framebuffer byte 0 should
become 0x7F and byte 1 should become 0x80.  The code instead leaves byte 0
untouched and xors 0x7F into byte 1 (columns 8..15) and 0x80 into byte 8
(row 1), because addr_left = vx % 64 + row * 8 uses the pixel column where
the byte column vx % 64 / 8 is required. -/
theorem drw_misaddressed_row :
    rd (drw mS6 0 1 1) (DISPLAY_BUFFER_ADDR + 0) = 0 ∧
    rd (drw mS6 0 1 1) (DISPLAY_BUFFER_ADDR + 1) = 0x7F ∧
    rd (drw mS6 0 1 1) (DISPLAY_BUFFER_ADDR + 8) = 0x80 ∧
    get_v (drw mS6 0 1 1) 0xF = 0 := by decide

/-- Concrete state for the key-wait claim: bytes 0xF1 0x0A (LD V1, K) at
PC = 0x200, machine running. -/
def mS7 : Chip8 := set_pc (wr (wr zeroS 0x200 0xF1) 0x201 0x0A) 0x200

/-- C7: the claim fails on the code.  A step on the LD V1, K encoding does
not enter the key-wait state: the fetch bug turns the opcode into 0x000A
(top nibble 0, never 0xF), no instruction matches, PC simply advances to
0x202 and the machine stays running.  Since every fetched opcode is at most
0xFF, no step can ever decode LD Vx, K, so the claimed Running to
AwaitingKey transition never happens. -/
theorem ld_key_press_unreachable_from_step :
    is_waiting_for_key (execute_instruction 0 mS7) = false ∧
    get_pc (execute_instruction 0 mS7) = 0x202 ∧
    fetch_opcode mS7 = 0x0A := by decide

/-- Concrete state for the stack round-trip claim: PC = 0x200, SP = 0, and
the RET encoding bytes 0x00 0xEE stored at 0x300 so that the step after the
call executes a return. -/
def mS8 : Chip8 := set_pc (wr zeroS 0x301 0xEE) 0x200

/-- C8: the claim fails on the code.  CALL 0x300 from PC = 0x200 does push
the call address 0x200 (stack bytes 0x02, 0x00) and jumps to 0x300, but the
following RET step ends with PC = 0x0002, not 0x202: pop_from_stack shifts
the high stack byte right by 8 instead of left, so only the low byte 0x00 is
restored and the blanket +2 lands on address 2. -/
theorem call_ret_roundtrip_loses_high_byte :
    rd (call mS8 0x300) 0x62 = 0x02 ∧
    rd (call mS8 0x300) 0x63 = 0x00 ∧
    get_pc (call mS8 0x300) = 0x300 ∧
    get_pc (execute_instruction 0 (call mS8 0x300)) = 0x02 := by decide

/-- Composition lemma: reading PC after set_pc returns the 16-bit value. -/
theorem get_pc_set_pc (s : Chip8) (v : Nat) : get_pc (set_pc s v) = v % 65536 := by
  simp only [get_pc, set_pc, PROGRAM_COUNTER_ADDR]
  rw [rd_wr, if_neg (by omega), rd_wr, if_pos rfl, rd_wr, if_pos rfl]
  omega

/-- set_pc leaves every cell outside the two PC bytes unchanged. -/
theorem rd_set_pc (s : Chip8) (v a : Nat) (h1 : a ≠ PROGRAM_COUNTER_ADDR)
    (h2 : a ≠ PROGRAM_COUNTER_ADDR + 1) : rd (set_pc s v) a = rd s a := by
  simp only [set_pc]
  rw [rd_wr, if_neg h2, rd_wr, if_neg h1]

/-- Reading SP after set_sp returns the truncated value. -/
theorem get_sp_set_sp (s : Chip8) (v : Nat) : get_sp (set_sp s v) = v % 256 := by
  simp only [get_sp, set_sp]
  rw [rd_wr, if_pos rfl]

/-- set_sp leaves every cell outside the SP byte unchanged. -/
theorem rd_set_sp (s : Chip8) (v a : Nat) (h : a ≠ STACK_POINTER_ADDR) :
    rd (set_sp s v) a = rd s a := by
  simp only [set_sp]
  rw [rd_wr, if_neg h]

/-- set_pc does not touch the stack pointer. -/
theorem get_sp_set_pc (s : Chip8) (v : Nat) : get_sp (set_pc s v) = get_sp s :=
  rd_set_pc s v STACK_POINTER_ADDR (by decide) (by decide)

/-- Concrete state for the SUB claim: V0 = V1 = 5. -/
def mS4 : Chip8 := set_v (set_v zeroS 0 5) 1 5

/-- C4 counterexample: with VX = VY = 5 the claim demands VF = 1 (5 >= 5, no
borrow), but sub_registers tests vx > vy strictly and leaves VF = 0. -/
theorem sub_registers_no_borrow_not_strict :
    get_v (sub_registers mS4 0 1) 0xF ≠ 1 := by decide

/-- C4 amended: for distinct register indices with x not 0xF, SUB Vx, Vy sets
VF to 1 iff VY < VX STRICTLY (the source compares vx > vy, so the a = b case
yields 0), and VX to (a - b) mod 256. -/
theorem sub_registers_borrow_strict (s : Chip8) (x y : Nat) (hx : x < 16) (hy : y < 16)
    (hxy : x ≠ y) (hxF : x ≠ 0xF) :
    get_v (sub_registers s x y) 0xF = (if get_v s y < get_v s x then 1 else 0) ∧
    get_v (sub_registers s x y) x = (get_v s x + 256 - get_v s y) % 256 := by
  have h1 : V_REGISTERS_ADDR + 0xF ≠ V_REGISTERS_ADDR + x := by
    simp only [V_REGISTERS_ADDR]; omega
  constructor
  · simp only [sub_registers, set_v, get_v]
    rw [rd_wr, if_neg h1, rd_wr, if_pos rfl]
    split <;> rfl
  · simp only [sub_registers, set_v, get_v]
    rw [rd_wr, if_pos rfl]
    exact Nat.mod_mod_of_dvd _ (dvd_refl 256)

/-- Witness state for the SUB theorem: V0 = 5, V1 = 2. -/
def mW4 : Chip8 := set_v (set_v zeroS 0 5) 1 2

/-- Witness for the amended SUB claim at V0 = 5, V1 = 2: VF = 1, V0 = 3. -/
theorem sub_registers_borrow_strict_witness :
    get_v (sub_registers mW4 0 1) 0xF = 1 ∧ get_v (sub_registers mW4 0 1) 0 = 3 := by
  have h := sub_registers_borrow_strict mW4 0 1 (by decide) (by decide)
    (by decide) (by decide)
  exact ⟨h.1.trans (by decide), h.2.trans (by decide)⟩

/-- Concrete state for the ADD claim: VF = 1, V0 = 2. -/
def mS5 : Chip8 := set_v (set_v zeroS 0xF 1) 0 2

/-- C5 counterexample: executing ADD VF, V0 with VF = 1, V0 = 2 must, per the
claim, leave VF equal to the carry flag (0 here); the code writes the flag
first and the truncated sum second, so the value write lands on VF last and
the final VF is 3, not the carry. -/
theorem add_registers_vf_overwritten :
    get_v (add_registers mS5 0xF 0) 0xF ≠
      (if 255 < get_v mS5 0xF + get_v mS5 0 then 1 else 0) := by decide

/-- C5 amended: ADD Vx, Vy stores (a + b) mod 256 into VX and writes the
carry to VF before the value write; hence for x not 0xF the final VF is the
carry, while for x = 0xF the value write overwrites the flag and the final
VF is (a + b) mod 256 (given by the first conjunct at x = 0xF). -/
theorem add_registers_result_and_carry (s : Chip8) (x y : Nat) (hx : x < 16)
    (hy : y < 16) (hxy : x ≠ y) :
    get_v (add_registers s x y) x = (get_v s x + get_v s y) % 256 ∧
    (x ≠ 0xF → get_v (add_registers s x y) 0xF =
      (if 255 < get_v s x + get_v s y then 1 else 0)) := by
  constructor
  · simp only [add_registers, set_v, get_v]
    rw [rd_wr, if_pos rfl]
    exact Nat.mod_mod_of_dvd _ (dvd_refl 256)
  · intro hxF
    have h1 : V_REGISTERS_ADDR + 0xF ≠ V_REGISTERS_ADDR + x := by
      simp only [V_REGISTERS_ADDR]; omega
    simp only [add_registers, set_v, get_v]
    rw [rd_wr, if_neg h1, rd_wr, if_pos rfl]
    split <;> rfl

/-- Witness state for the ADD theorem: V0 = 200, V1 = 100. -/
def mW5 : Chip8 := set_v (set_v zeroS 0 200) 1 100

/-- Witness for the amended ADD claim at V0 = 200, V1 = 100: V0 = 44 (the
wrapped sum) and VF = 1 (carry). -/
theorem add_registers_result_and_carry_witness :
    get_v (add_registers mW5 0 1) 0 = 44 ∧ get_v (add_registers mW5 0 1) 0xF = 1 := by
  have h := add_registers_result_and_carry mW5 0 1 (by decide) (by decide) (by decide)
  exact ⟨h.1.trans (by decide), (h.2 (by decide)).trans (by decide)⟩

/-- C10: RET with stack pointer SP >= 1 decrements SP by exactly one (the
u8 decrement rendered (SP + 255) mod 256 collapses to SP - 1, so it cannot
underflow) and sets PC from the popped slot: the resulting PC is determined
by the bytes of the slot at STACK_ADDR + SP * 2 that pop_from_stack reads
(the or of the high byte shifted right and the low byte, which is the low
byte of the slot).  No guard for SP = 0 exists in ret or pop_from_stack. -/
theorem ret_pops_stack (s : Chip8) (h : 1 ≤ get_sp s) :
    get_sp (ret s) = get_sp s - 1 ∧
    get_pc (ret s) = rd s (STACK_ADDR + get_sp s * 2 % 256 + 1) := by
  have hsp : get_sp s < 256 := rd_lt s _
  have hoff : get_sp s * 2 % 256 < 256 := Nat.mod_lt _ (by omega)
  constructor
  · simp only [ret, pop_from_stack]
    rw [get_sp_set_pc, get_sp_set_sp]
    omega
  · simp only [ret, pop_from_stack]
    rw [get_pc_set_pc]
    rw [rd_set_sp _ _ _ (by simp only [STACK_ADDR, STACK_POINTER_ADDR]; omega),
        rd_set_sp _ _ _ (by simp only [STACK_ADDR, STACK_POINTER_ADDR]; omega)]
    rw [Nat.div_eq_of_lt (rd_lt s _), Nat.zero_or]
    exact Nat.mod_eq_of_lt (lt_trans (rd_lt s _) (by omega))

/-- Witness state for the RET theorem: SP = 1, stack slot low byte 0x34. -/
def mW10 : Chip8 := set_sp (wr zeroS 0x63 0x34) 1

/-- Witness for the RET claim at SP = 1: SP becomes 0 and PC becomes the
low slot byte 0x34. -/
theorem ret_pops_stack_witness :
    get_sp (ret mW10) = 0 ∧ get_pc (ret mW10) = 0x34 := by
  have h := ret_pops_stack mW10 (by decide)
  exact ⟨h.1.trans (by decide), h.2.trans (by decide)⟩

/-- Registers are bytes. -/
theorem get_v_lt (s : Chip8) (i : Nat) : get_v s i < 256 := rd_lt s _

/-- Reading a register after writing the same register. -/
theorem get_v_set_v_self (s : Chip8) (i v : Nat) :
    get_v (set_v s i v) i = v % 256 := by
  simp only [get_v, set_v]
  rw [rd_wr, if_pos rfl]

/-- Reading a register after writing a different register. -/
theorem get_v_set_v_ne (s : Chip8) (i k v : Nat) (h : i ≠ k) :
    get_v (set_v s k v) i = get_v s i := by
  simp only [get_v, set_v]
  rw [rd_wr, if_neg (by simp only [V_REGISTERS_ADDR]; omega)]

/-- The register-store loop of ld_into_mem leaves every address outside its
write set unchanged. -/
theorem into_fold_frame (i : Nat) : ∀ (n : Nat) (s : Chip8) (a : Nat),
    (∀ j, j < n → a ≠ (i + j) % 65536) →
    rd ((List.range n).foldl (fun t j => wr t ((i + j) % 65536) (get_v t j)) s) a
      = rd s a := by
  intro n
  induction n with
  | zero => intro s a _; rfl
  | succ m ih =>
    intro s a h
    rw [List.range_succ, List.foldl_append, List.foldl_cons, List.foldl_nil]
    rw [rd_wr, if_neg (h m (Nat.lt_succ_self m))]
    exact ih s a (fun j hj => h j (Nat.lt_succ_of_lt hj))

/-- When the destination block avoids the register file, the store loop
writes the original register values. -/
theorem into_fold_values (i : Nat) : ∀ (n : Nat) (s : Chip8),
    n ≤ 16 → i + n ≤ 0x1000 →
    (∀ j, j < n → i + j < 0x50 ∨ 0x5F < i + j) →
    ∀ j, j < n →
    rd ((List.range n).foldl (fun t k => wr t ((i + k) % 65536) (get_v t k)) s)
        ((i + j) % 65536)
      = get_v s j := by
  intro n
  induction n with
  | zero => intro s _ _ _ j hj; exact absurd hj (Nat.not_lt_zero j)
  | succ m ih =>
    intro s hn hbound hV j hj
    rw [List.range_succ, List.foldl_append, List.foldl_cons, List.foldl_nil]
    by_cases hjm : j = m
    · subst hjm
      rw [rd_wr, if_pos rfl]
      have hfm : get_v ((List.range j).foldl
          (fun t k => wr t ((i + k) % 65536) (get_v t k)) s) j = get_v s j := by
        refine into_fold_frame i j s _ (fun k hk => ?_)
        have h1 := hV k (by omega)
        have h2 : (i + k) % 65536 = i + k := Nat.mod_eq_of_lt (by omega)
        simp only [V_REGISTERS_ADDR]
        omega
      rw [hfm, Nat.mod_eq_of_lt (get_v_lt s j)]
    · have hj' : j < m := by omega
      have hne : (i + j) % 65536 ≠ (i + m) % 65536 := by
        have h1 : (i + j) % 65536 = i + j := Nat.mod_eq_of_lt (by omega)
        have h2 : (i + m) % 65536 = i + m := Nat.mod_eq_of_lt (by omega)
        omega
      rw [rd_wr, if_neg hne]
      exact ih s (by omega) (by omega) (fun k hk => hV k (by omega)) j hj'

/-- The register-load loop of ld_from_mem writes only the register file. -/
theorem from_fold_frame (i : Nat) : ∀ (n : Nat) (t : Chip8) (a : Nat),
    (∀ j, j < n → a ≠ V_REGISTERS_ADDR + j) →
    rd ((List.range n).foldl (fun u k => set_v u k (rd u ((i + k) % 65536))) t) a
      = rd t a := by
  intro n
  induction n with
  | zero => intro t a _; rfl
  | succ m ih =>
    intro t a h
    rw [List.range_succ, List.foldl_append, List.foldl_cons, List.foldl_nil]
    simp only [set_v]
    rw [rd_wr, if_neg (h m (Nat.lt_succ_self m))]
    exact ih t a (fun j hj => h j (Nat.lt_succ_of_lt hj))

/-- When the source block avoids the register file, the load loop fills each
register with the corresponding source byte of the initial state. -/
theorem from_fold_values (i : Nat) : ∀ (n : Nat) (t : Chip8),
    n ≤ 16 → i + n ≤ 0x1000 →
    (∀ j, j < n → i + j < 0x50 ∨ 0x5F < i + j) →
    ∀ j, j < n →
    get_v ((List.range n).foldl (fun u k => set_v u k (rd u ((i + k) % 65536))) t) j
      = rd t ((i + j) % 65536) := by
  intro n
  induction n with
  | zero => intro t _ _ _ j hj; exact absurd hj (Nat.not_lt_zero j)
  | succ m ih =>
    intro t hn hbound hV j hj
    rw [List.range_succ, List.foldl_append, List.foldl_cons, List.foldl_nil]
    by_cases hjm : j = m
    · subst hjm
      rw [get_v_set_v_self]
      have hfm : rd ((List.range j).foldl
          (fun u k => set_v u k (rd u ((i + k) % 65536))) t) ((i + j) % 65536)
          = rd t ((i + j) % 65536) := by
        refine from_fold_frame i j t _ (fun k hk => ?_)
        have h1 := hV j (by omega)
        have h2 : (i + j) % 65536 = i + j := Nat.mod_eq_of_lt (by omega)
        simp only [V_REGISTERS_ADDR]
        omega
      rw [hfm, Nat.mod_eq_of_lt (rd_lt t _)]
    · have hj' : j < m := by omega
      rw [get_v_set_v_ne _ _ _ _ hjm]
      exact ih t (by omega) (by omega) (fun k hk => hV k (by omega)) j hj'

/-- The store loop does not touch the index register when its block avoids
the two index-register bytes. -/
theorem get_i_into_fold (i2 n : Nat) (s : Chip8)
    (h : ∀ j, j < n → 0x185 ≠ (i2 + j) % 65536 ∧ 0x186 ≠ (i2 + j) % 65536) :
    get_i ((List.range n).foldl (fun t j => wr t ((i2 + j) % 65536) (get_v t j)) s)
      = get_i s := by
  unfold get_i
  rw [into_fold_frame i2 n s INDEX_REGISTER_ADDR
      (by simp only [INDEX_REGISTER_ADDR]; exact fun j hj => (h j hj).1),
    into_fold_frame i2 n s (INDEX_REGISTER_ADDR + 1)
      (by simp only [INDEX_REGISTER_ADDR]; exact fun j hj => (h j hj).2)]

/-- The load loop never touches the index register (it writes registers
0..n-1 only, n at most 16). -/
theorem get_i_from_fold (i2 n : Nat) (t : Chip8) (hn : n ≤ 16) :
    get_i ((List.range n).foldl (fun u k => set_v u k (rd u ((i2 + k) % 65536))) t)
      = get_i t := by
  unfold get_i
  rw [from_fold_frame i2 n t INDEX_REGISTER_ADDR
      (by simp only [INDEX_REGISTER_ADDR, V_REGISTERS_ADDR]; omega),
    from_fold_frame i2 n t (INDEX_REGISTER_ADDR + 1)
      (by simp only [INDEX_REGISTER_ADDR, V_REGISTERS_ADDR]; omega)]

/-- Concrete state for the block-transfer claim: V0 = 1, V1 = 2, I = 0x51,
so the stored block overlaps the register file itself. -/
def mS9 : Chip8 := set_i (set_v (set_v zeroS 0 1) 1 2) 0x51

/-- C9 counterexample: with I = 0x51 the stored block overlaps the memory
cells that back V1, so LD [I],V1 clobbers V1 before saving it and the
read-back leaves V1 = 1 instead of the original 2: the round trip does not
restore the registers for every index value I. -/
theorem block_transfer_overlap_clobbers :
    get_v (ld_from_mem (ld_into_mem mS9 1) 1) 1 ≠ get_v mS9 1 := by decide

/-- C9 amended: the round trip LD [I],Vx then LD Vx,[I] restores V0..Vx and
leaves I unchanged provided the block I..I+x stays inside memory and is
disjoint from the register file backing store (0x50..0x5F) and from the two
index-register bytes (0x185..0x186).  The proviso is needed because the
registers and I live inside the same memory: without it the round trip can
fail, as the counterexample at I = 0x51 shows (it is a sufficient condition
only; some overlapping choices, such as I = 0x50 where the store writes each
register onto itself, still happen to restore the registers). -/
theorem block_transfer_roundtrip_disjoint (s : Chip8) (x : Nat) (hx : x < 16)
    (hbound : get_i s + x ≤ 0xFFF)
    (hV : get_i s + x < 0x50 ∨ 0x5F < get_i s)
    (hI : get_i s + x < 0x185 ∨ 0x186 < get_i s) :
    (∀ j, j ≤ x → get_v (ld_from_mem (ld_into_mem s x) x) j = get_v s j) ∧
    get_i (ld_into_mem s x) = get_i s ∧
    get_i (ld_from_mem (ld_into_mem s x) x) = get_i s := by
  have hVj : ∀ j, j < x + 1 → get_i s + j < 0x50 ∨ 0x5F < get_i s + j := by
    intro j hj; omega
  have hIj : ∀ j, j < x + 1 →
      0x185 ≠ (get_i s + j) % 65536 ∧ 0x186 ≠ (get_i s + j) % 65536 := by
    intro j hj
    have h2 : (get_i s + j) % 65536 = get_i s + j := Nat.mod_eq_of_lt (by omega)
    omega
  have hmid : get_i (ld_into_mem s x) = get_i s := by
    simp only [ld_into_mem]
    exact get_i_into_fold (get_i s) (x + 1) s hIj
  refine ⟨?_, hmid, ?_⟩
  · intro j hj
    simp only [ld_from_mem, hmid]
    rw [from_fold_values (get_i s) (x + 1) (ld_into_mem s x) (by omega) (by omega)
      hVj j (by omega)]
    simp only [ld_into_mem]
    exact into_fold_values (get_i s) (x + 1) s (by omega) (by omega) hVj j (by omega)
  · simp only [ld_from_mem, hmid]
    rw [get_i_from_fold (get_i s) (x + 1) (ld_into_mem s x) (by omega)]
    exact hmid

/-- Witness state for the block-transfer theorem: V0 = 7, V1 = 9, I = 0x200,
a block fully inside the program space. -/
def mW9 : Chip8 := set_i (set_v (set_v zeroS 0 7) 1 9) 0x200

/-- Witness for the amended block-transfer claim at I = 0x200, x = 1. -/
theorem block_transfer_roundtrip_disjoint_witness :
    (∀ j, j ≤ 1 → get_v (ld_from_mem (ld_into_mem mW9 1) 1) j = get_v mW9 j) ∧
    get_i (ld_into_mem mW9 1) = get_i mW9 ∧
    get_i (ld_from_mem (ld_into_mem mW9 1) 1) = get_i mW9 :=
  block_transfer_roundtrip_disjoint mW9 1 (by decide) (by decide) (by decide)
    (by decide)
